import Mathlib

/-!
Shallow embedding of the volt build-cache fingerprinting subsystem
(crates/volt/hash.rs) and of the volt-server HTTP handlers
(crates/volt-server/server.rs), together with theorems checking the
specification's claims against these definitions.

Machine integers are modelled as `Nat` with explicit `% 2 ^ 64` where the
source wraps; fallible Rust functions returning `Result` are modelled with
`Except`.
-/

/-- Error type standing for `std::io::Error`; the fingerprinting code never
actually constructs one. -/
inductive IOErr : Type
  | ioError
deriving DecidableEq

instance instDecEqExcept {ε α : Type} [DecidableEq ε] [DecidableEq α] :
    DecidableEq (Except ε α) := fun x y =>
  match x, y with
  | .ok a, .ok b =>
    if h : a = b then isTrue (by rw [h])
    else isFalse (fun he => h (Except.ok.inj he))
  | .error a, .error b =>
    if h : a = b then isTrue (by rw [h])
    else isFalse (fun he => h (Except.error.inj he))
  | .ok _, .error _ => isFalse (fun he => Except.noConfusion he)
  | .error _, .ok _ => isFalse (fun he => Except.noConfusion he)

/-- Lowercase hex digit for a nibble, as in the source's nibble rendering
(`b'0' + nibble` / `b'a' + (nibble - 10)`). -/
def hexChar (n : Nat) : Char :=
  if n < 10 then Char.ofNat (48 + n) else Char.ofNat (97 + (n - 10))

/-- Translation of `bytes_to_hex` (hash.rs): two lowercase hex chars per
byte, high nibble first (`byte >> 4`, `byte & 0xf`). -/
def bytes_to_hex (bytes : List Nat) : String :=
  String.mk (bytes.flatMap (fun b => [hexChar (b >>> 4), hexChar (b &&& 15)]))

/-- Unpadded lowercase hex digits of `n`, most significant first; fuel-based
so that it is structurally recursive.  With fuel 16 this covers every value
below `16 ^ 16 = 2 ^ 64`, i.e. the whole `u64` range the source formats. -/
def hexDigitsAux : Nat → Nat → List Char
  | 0, _ => []
  | _ + 1, 0 => []
  | fuel + 1, n + 1 => hexDigitsAux fuel ((n + 1) / 16) ++ [hexChar ((n + 1) % 16)]

/-- Translation of Rust's `format!("{:x}", v)` on a `u64` value: unpadded
lowercase hex, and `"0"` for zero. -/
def formatHex (n : Nat) : String :=
  if n = 0 then "0" else String.mk (hexDigitsAux 16 n)

/-- Fixed-width 16-hex-char rendering of one 64-bit round value, translating
the source's `for shift in (0..64).step_by(4).rev()` nibble loop
(compute_cache_merkle_multi, hash.rs). -/
def toHex16 (n : Nat) : String :=
  String.mk ((List.range 16).map (fun j => hexChar ((n >>> (4 * (15 - j))) &&& 15)))

/-- Value of one hex digit character, accepting both cases, as
`u64::from_str_radix(_, 16)` does. -/
def hexDigitVal (c : Char) : Option Nat :=
  if 48 ≤ c.toNat ∧ c.toNat ≤ 57 then some (c.toNat - 48)
  else if 97 ≤ c.toNat ∧ c.toNat ≤ 102 then some (c.toNat - 87)
  else if 65 ≤ c.toNat ∧ c.toNat ≤ 70 then some (c.toNat - 55)
  else none

/-- Digit loop of `u64::from_str_radix(_, 16)`: accumulate base-16 digits,
failing on a non-digit or on overflow past `2 ^ 64`. -/
def parseHexDigits : Nat → List Char → Option Nat
  | acc, [] => some acc
  | acc, c :: cs =>
    match hexDigitVal c with
    | some v => if acc * 16 + v < 2 ^ 64 then parseHexDigits (acc * 16 + v) cs else none
    | none => none

/-- Translation of `u64::from_str_radix(s, 16)`: an optional leading `+`
(a `-` is not accepted for an unsigned type), then at least one hex digit,
with overflow reported as failure. -/
def fromStrRadix16U64 (s : String) : Option Nat :=
  let cs := match s.data with
    | c :: rest => if c = '+' then rest else c :: rest
    | [] => []
  match cs with
  | [] => none
  | _ :: _ => parseHexDigits 0 cs

/-- The source's `u64::from_str_radix(truncated, 16).unwrap_or(0)`. -/
def u64FromHexOr0 (s : String) : Nat := (fromStrRadix16U64 s).getD 0

/-- Byte-lexicographic order on strings, as Rust's `Ord for String` compares
(UTF-8 byte order coincides with code-point order). -/
def charsLe : List Char → List Char → Bool
  | [], _ => true
  | _ :: _, [] => false
  | c :: cs, d :: ds =>
    if c.toNat < d.toNat then true
    else if d.toNat < c.toNat then false
    else charsLe cs ds

def strLeB (a b : String) : Bool := charsLe a.data b.data

/-- Insert into a sorted list, keeping earlier-or-equal elements in front. -/
def insertSortedBy {α : Type} (le : α → α → Bool) (x : α) : List α → List α
  | [] => [x]
  | y :: ys => if le x y then x :: y :: ys else y :: insertSortedBy le x ys

/-- Model of `Vec::sort` on strings: since string elements are their own
sort keys and the order is total, every correct sort produces the same
output list, so a structural insertion sort is an exact model. -/
def sortBy {α : Type} (le : α → α → Bool) : List α → List α
  | [] => []
  | x :: xs => insertSortedBy le x (sortBy le xs)

/-- Abstraction of the filesystem as the fingerprinting code observes it.
`fileDigest` abstracts the per-file `DefaultHasher` pipeline of the source
(`hash_metadata`, `should_sample`, `hash_file_sample`, `finish`): a
deterministic 64-bit function of the file's path, metadata and sampled
content, independent of which directory list the file was reached from. -/
structure FS : Type where
  /-- `Path::exists` for a directory argument. -/
  pathExists : String → Bool
  /-- Whether `Path::to_str` succeeds (the path is valid UTF-8). -/
  pathUtf8 : String → Bool
  /-- `MerkleTree::builder(..).build()`: `some` root-hash bytes on success,
  `none` on a build error. -/
  merkleRoot : String → Option (List Nat)
  /-- The regular files `walkdir` finds under a directory, in traversal
  order, errors already skipped (`filter_map(|e| e.ok())`). -/
  filesOf : String → List String
  /-- Per-file 64-bit `DefaultHasher` digest (see structure docstring). -/
  fileDigest : String → Nat
  /-- Merkle root hashes are byte lists. -/
  merkle_bytes_lt : ∀ d bs, merkleRoot d = some bs → ∀ b ∈ bs, b < 256
  /-- The digest is a `u64`. -/
  digest_lt : ∀ p, fileDigest p < 2 ^ 64

/-- `MERKLE_TREE_THRESHOLD` (hash.rs). -/
def MERKLE_TREE_THRESHOLD : Nat := 1000

/-- `DEFAULT_HASH` (hash.rs): the 64-char all-zero sentinel fingerprint. -/
def DEFAULT_HASH : String :=
  "0000000000000000000000000000000000000000000000000000000000000000"

/-- Pure value of the sampling hash: files of all directories concatenated,
sorted, per-file digests XOR-folded, rendered as unpadded hex. -/
def samplingPure (fs : FS) (dirs : List String) : String :=
  let all_files := (dirs.map fs.filesOf).flatten
  let sorted := sortBy strLeB all_files
  let hashes := sorted.map fs.fileDigest
  let final_hash := hashes.foldl (fun a b => a ^^^ b) 0
  formatHex final_hash

/-- Translation of `compute_cache_sampling` (hash.rs): collect regular files
of every directory, sort the union of paths, digest each file with
`DefaultHasher` (abstracted as `fs.fileDigest`), XOR-fold the digests and
render with `format!("{:x}", _)`.  The parallel `par_iter` map is modelled
as a plain map: the digest of a file does not depend on scheduling. -/
def compute_cache_sampling (fs : FS) (dirs : List String) : Except IOErr String :=
  let all_files := (dirs.map fs.filesOf).flatten
  let sorted := sortBy strLeB all_files
  let hashes := sorted.map fs.fileDigest
  let final_hash := hashes.foldl (fun a b => a ^^^ b) 0
  .ok (formatHex final_hash)

/-- Translation of `compute_cache_merkle` (hash.rs): sentinel for a missing
or non-UTF-8 path, the Blake3 merkle root rendered in hex on success, and
the sampling hash of that single directory when the tree build fails. -/
def compute_cache_merkle (fs : FS) (dir : String) : Except IOErr String :=
  if fs.pathExists dir = false then .ok DEFAULT_HASH
  else if fs.pathUtf8 dir = false then .ok DEFAULT_HASH
  else
    match fs.merkleRoot dir with
    | some bytes => .ok (bytes_to_hex bytes)
    | none => compute_cache_sampling fs [dir]

/-- Pure value of `compute_cache_merkle` (it never returns an error). -/
def merklePure (fs : FS) (dir : String) : String :=
  if fs.pathExists dir = false then DEFAULT_HASH
  else if fs.pathUtf8 dir = false then DEFAULT_HASH
  else
    match fs.merkleRoot dir with
    | some bytes => bytes_to_hex bytes
    | none => samplingPure fs [dir]

/-- The source's per-directory loop in `compute_cache_merkle_multi`:
`for dir in dirs { merkle_hashes.push(compute_cache_merkle(dir)?) }`. -/
def mapMerkle (fs : FS) : List String → Except IOErr (List String)
  | [] => .ok []
  | d :: ds => do
    let h ← compute_cache_merkle fs d
    let hs ← mapMerkle fs ds
    .ok (h :: hs)

/-- One mixing round of `compute_cache_merkle_multi`: XOR-accumulate
`(u64-value of the hash truncated to 16 hex chars).wrapping_add(i)` over
all hashes. -/
def combineRound (hashes : List String) (i : Nat) : Nat :=
  hashes.foldl
    (fun acc hash_str =>
      let truncated := if hash_str.length > 16 then String.mk (hash_str.data.take 16) else hash_str
      acc ^^^ ((u64FromHexOr0 truncated + i) % 2 ^ 64))
    0

/-- Translation of `compute_cache_merkle_multi` (hash.rs): per-directory
hashes, sorted, then 4 mixing rounds each rendered as 16 hex chars. -/
def compute_cache_merkle_multi (fs : FS) (dirs : List String) : Except IOErr String :=
  match mapMerkle fs dirs with
  | .error e => .error e
  | .ok merkle_hashes =>
    let sorted := sortBy strLeB merkle_hashes
    .ok (String.join ((List.range 4).map (fun i => toHex16 (combineRound sorted i))))

/-- `count_files_in_dir` (hash.rs). -/
def count_files_in_dir (fs : FS) (dir : String) : Nat := (fs.filesOf dir).length

/-- Translation of `compute_cache` (hash.rs): sentinel for an empty list,
per-directory exact hash for a single directory, and for several
directories the exact-multi or sampling path chosen by total file count. -/
def compute_cache (fs : FS) (dirs : List String) : Except IOErr String :=
  match dirs with
  | [] => .ok DEFAULT_HASH
  | [d] => compute_cache_merkle fs d
  | ds =>
    let total_files := (ds.map (count_files_in_dir fs)).sum
    if total_files ≤ MERKLE_TREE_THRESHOLD then compute_cache_merkle_multi fs ds
    else compute_cache_sampling fs ds

/-! Server model (crates/volt-server/server.rs). -/

/-- HTTP status codes the server handlers produce. -/
inductive Status : Type
  | ok
  | badRequest
  | unauthorized
  | forbidden
  | notModified
  | notFound
  | internalServerError
deriving DecidableEq

/-- Outcome of `tokio::fs::File::open` on the archive file, as `pull`
distinguishes it: found, `ErrorKind::NotFound`, or another I/O error. -/
inductive FileRead : Type
  | found (bytes : List Nat)
  | notFound
  | ioErr
deriving DecidableEq

/-- The two sibling files a slot owns under the storage root:
`{slotId}.hash` (its readable text content, `none` when `read_to_string`
fails) and `{slotId}.zst`. -/
structure StoreState : Type where
  hashFile : Option String
  zstFile : FileRead
deriving DecidableEq

/-- A handler response: a bare status, or a body with a Content-Encoding
header (the `pull` 200 path). -/
inductive Resp : Type
  | status (code : Status)
  | archive (contentEncoding : String) (bytes : List Nat)
deriving DecidableEq

/-- Whether a character is a hex digit, either case, for UUID parsing. -/
def uuidHexDigit (c : Char) : Bool :=
  (48 ≤ c.toNat && c.toNat ≤ 57) || (97 ≤ c.toNat && c.toNat ≤ 102) ||
    (65 ≤ c.toNat && c.toNat ≤ 70)

/-- Hyphenated UUID text: 36 chars, `-` at positions 8, 13, 18, 23, hex
digits elsewhere. -/
def uuidHyphenatedOk (cs : List Char) : Bool :=
  cs.length == 36 &&
    (List.range 36).all (fun i =>
      if i == 8 || i == 13 || i == 18 || i == 23 then cs.getD i ' ' == '-'
      else uuidHexDigit (cs.getD i ' '))

/-- Simple UUID text: 32 hex digits. -/
def uuidSimpleOk (cs : List Char) : Bool := cs.length == 32 && cs.all uuidHexDigit

/-- Braced UUID text: a hyphenated UUID between curly braces. -/
def uuidBracedOk (cs : List Char) : Bool :=
  cs.length == 38 && cs.headD ' ' == Char.ofNat 123 && cs.getLastD ' ' == Char.ofNat 125 &&
    uuidHyphenatedOk (cs.drop 1).dropLast

/-- URN UUID text: the prefix `urn:uuid:` then a hyphenated UUID. -/
def uuidUrnOk (cs : List Char) : Bool :=
  cs.take 9 == "urn:uuid:".data && uuidHyphenatedOk (cs.drop 9)

/-- Model of `uuid::Uuid::parse_str`, which accepts the simple, hyphenated,
braced and URN textual forms. -/
def uuidParseOk (s : String) : Bool :=
  uuidSimpleOk s.data || uuidHyphenatedOk s.data || uuidBracedOk s.data || uuidUrnOk s.data

/-- Model of `str::trim` on the stored hash text: strip whitespace from
both ends. -/
def strTrim (s : String) : String :=
  String.mk (((s.data.dropWhile Char.isWhitespace).reverse.dropWhile Char.isWhitespace).reverse)

/-- Translation of the `pull` handler (server.rs): reject a non-UUID slot id
before any filesystem access; answer 304 when both the request hash and the
stored hash text exist and agree after trimming; otherwise serve the archive
file with `Content-Encoding: zstd`, mapping `NotFound` to 404 and other open
errors to 500.  `clientHash` models
`headers.get("X-Volt-Hash").and_then(|h| h.to_str().ok())`.
`pullServeArchive` is the archive-serving tail of the handler. -/
def pullServeArchive (st : StoreState) : Resp :=
  match st.zstFile with
  | .found bytes => .archive "zstd" bytes
  | .notFound => .status .notFound
  | .ioErr => .status .internalServerError

def pull (st : StoreState) (volt_id : String) (clientHash : Option String) : Resp :=
  if uuidParseOk volt_id = false then .status .badRequest
  else
    match clientHash, st.hashFile with
    | some c, some s =>
      if c = strTrim s then .status .notModified else pullServeArchive st
    | _, _ => pullServeArchive st

/-- Body streaming loop of the `push` handler: append each chunk to the file
contents; a failing chunk stops the loop, leaving the bytes written so far
in the file (`.error partialBytes`). -/
def pushWrite : List Nat → List (Except Unit (List Nat)) → Except (List Nat) (List Nat)
  | acc, [] => .ok acc
  | acc, .ok c :: rest => pushWrite (acc ++ c) rest
  | acc, .error _ :: _ => .error acc

/-- Translation of the `push` handler (server.rs): reject a non-UUID slot id
before any filesystem access, create/truncate the archive file, stream the
body chunks into it (a stream error answers 400 with the partial file left
behind), then write the `X-Volt-Hash` header value — or the empty string
when the header is absent or not a readable string (`unwrap_or_default`) —
to the hash file.  Directory creation and file I/O success are assumed (the
claims under study concern the success path). -/
def push (st : StoreState) (volt_id : String) (hashHeader : Option String)
    (chunks : List (Except Unit (List Nat))) : Status × StoreState :=
  if uuidParseOk volt_id = false then (.badRequest, st)
  else
    match pushWrite [] chunks with
    | .error partialBytes => (.badRequest, { st with zstFile := .found partialBytes })
    | .ok body =>
      (.ok, { zstFile := .found body, hashFile := some (hashHeader.getD "") })

/-- Model of `value.strip_prefix("Bearer ")` on the Authorization header. -/
def stripBearer (v : String) : Option String :=
  if ("Bearer ".data).isPrefixOf v.data then some (String.mk (v.data.drop 7)) else none

/-- Translation of `auth_middleware` (server.rs): `none` means the request
may proceed to the inner handler; otherwise the middleware answers the given
status itself.  `authHeader` models
`headers.get("Authorization").and_then(|v| v.to_str().ok())`, so a missing
header and a non-string header value coincide as `none`. -/
def auth_middleware (authToken : String) (authHeader : Option String) : Option Status :=
  match authHeader.bind stripBearer with
  | none => some .unauthorized
  | some tok => if tok ≠ authToken then some .forbidden else none

/-- A request as routed through the middleware stack: the auth middleware
runs first and, on failure, produces the response without the route handler
ever running (the handler, abstracted as any function of the store state,
is not applied). -/
def handleRequest (authToken : String) (authHeader : Option String)
    (handler : StoreState → Resp) (st : StoreState) : Resp :=
  match auth_middleware authToken authHeader with
  | some code => .status code
  | none => handler st

/-! Interleaving model for concurrent pushes (claim C8). -/

/-- The two filesystem writes one `push` performs, in order: the archive
file, then the hash file. -/
inductive PushStep : Type
  | wZst (bytes : List Nat)
  | wHash (h : String)
deriving DecidableEq

/-- Effect of one write on the slot's stored entry. -/
def applyStep (st : StoreState) : PushStep → StoreState
  | .wZst bytes => { st with zstFile := .found bytes }
  | .wHash h => { st with hashFile := some h }

def runSteps (st : StoreState) (steps : List PushStep) : StoreState :=
  steps.foldl applyStep st

/-- The write sequence of one successful `push` with body `bytes` and
fingerprint header `h`. -/
def pushSteps (bytes : List Nat) (h : String) : List PushStep :=
  [.wZst bytes, .wHash h]

/-- `Interleaving a b c`: `c` is an interleaving of the step sequences `a`
and `b`, each kept in program order — the schedules the server admits, since
it runs requests concurrently with no per-slot serialization. -/
inductive Interleaving : List PushStep → List PushStep → List PushStep → Prop
  | nil : Interleaving [] [] []
  | left {x xs ys zs} : Interleaving xs ys zs → Interleaving (x :: xs) ys (x :: zs)
  | right {y xs ys zs} : Interleaving xs ys zs → Interleaving xs (y :: ys) (y :: zs)

/-! Helper lemmas. -/

theorem insertSortedBy_perm {α : Type} (le : α → α → Bool) (x : α) (l : List α) :
    (insertSortedBy le x l).Perm (x :: l) := by
  induction l with
  | nil => exact List.Perm.refl _
  | cons y ys ih =>
    simp only [insertSortedBy]
    split
    · exact List.Perm.refl _
    · exact (List.Perm.cons y ih).trans (List.Perm.swap x y ys)

theorem sortBy_perm {α : Type} (le : α → α → Bool) (l : List α) :
    (sortBy le l).Perm l := by
  induction l with
  | nil => exact List.Perm.refl _
  | cons x xs ih => exact (insertSortedBy_perm le x _).trans (List.Perm.cons x ih)

/-- An XOR accumulation is invariant under permutation of the folded list:
the reduction of the per-item values is commutative and associative. -/
theorem foldl_xor_perm {α : Type} (g : α → Nat) {l1 l2 : List α} (h : l1.Perm l2)
    (init : Nat) :
    l1.foldl (fun a x => a ^^^ g x) init = l2.foldl (fun a x => a ^^^ g x) init := by
  haveI : RightCommutative (fun (a : Nat) (x : α) => a ^^^ g x) :=
    ⟨fun b a1 a2 => by simp only [Nat.xor_assoc, Nat.xor_comm (g a1) (g a2)]⟩
  exact h.foldl_eq init

theorem compute_cache_sampling_eq (fs : FS) (dirs : List String) :
    compute_cache_sampling fs dirs = .ok (samplingPure fs dirs) := rfl

theorem compute_cache_merkle_eq (fs : FS) (d : String) :
    compute_cache_merkle fs d = .ok (merklePure fs d) := by
  unfold compute_cache_merkle merklePure
  split
  · rfl
  · split
    · rfl
    · split
      · rfl
      · rfl

theorem mapMerkle_eq (fs : FS) (dirs : List String) :
    mapMerkle fs dirs = .ok (dirs.map (merklePure fs)) := by
  induction dirs with
  | nil => rfl
  | cons d ds ih =>
    simp only [mapMerkle, compute_cache_merkle_eq, ih, List.map]
    rfl

/-- Pure value of `compute_cache_merkle_multi` (it never returns an
error). -/
def multiPure (fs : FS) (dirs : List String) : String :=
  String.join ((List.range 4).map
    (fun i => toHex16 (combineRound (sortBy strLeB (dirs.map (merklePure fs))) i)))

theorem compute_cache_merkle_multi_eq (fs : FS) (dirs : List String) :
    compute_cache_merkle_multi fs dirs = .ok (multiPure fs dirs) := by
  unfold compute_cache_merkle_multi multiPure
  rw [mapMerkle_eq]

theorem samplingPure_perm (fs : FS) {d1 d2 : List String} (h : d1.Perm d2) :
    samplingPure fs d1 = samplingPure fs d2 := by
  unfold samplingPure
  have hfiles : ((d1.map fs.filesOf).flatten).Perm ((d2.map fs.filesOf).flatten) :=
    (h.map fs.filesOf).flatten
  have hsorted : (sortBy strLeB ((d1.map fs.filesOf).flatten)).Perm
      (sortBy strLeB ((d2.map fs.filesOf).flatten)) :=
    (sortBy_perm _ _).trans (hfiles.trans (sortBy_perm _ _).symm)
  simp only [List.foldl_map]
  congr 1
  exact foldl_xor_perm fs.fileDigest hsorted 0

theorem combineRound_perm {l1 l2 : List String} (h : l1.Perm l2) (i : Nat) :
    combineRound l1 i = combineRound l2 i := by
  unfold combineRound
  exact foldl_xor_perm
    (fun hash_str =>
      (u64FromHexOr0
        (if hash_str.length > 16 then String.mk (hash_str.data.take 16) else hash_str) + i)
        % 2 ^ 64)
    h 0

theorem multiPure_perm (fs : FS) {d1 d2 : List String} (h : d1.Perm d2) :
    multiPure fs d1 = multiPure fs d2 := by
  unfold multiPure
  have hh : ((d1.map (merklePure fs))).Perm ((d2.map (merklePure fs))) := h.map _
  have hs : (sortBy strLeB (d1.map (merklePure fs))).Perm
      (sortBy strLeB (d2.map (merklePure fs))) :=
    (sortBy_perm _ _).trans (hh.trans (sortBy_perm _ _).symm)
  have hr : ∀ i, combineRound (sortBy strLeB (d1.map (merklePure fs))) i
      = combineRound (sortBy strLeB (d2.map (merklePure fs))) i :=
    fun i => combineRound_perm hs i
  simp only [hr]

/-! Concrete filesystem states used by witnesses and counterexamples. -/

/-- A filesystem on which no directory exists and no files are found. -/
def fsEmpty : FS where
  pathExists := fun _ => false
  pathUtf8 := fun _ => true
  merkleRoot := fun _ => none
  filesOf := fun _ => []
  fileDigest := fun _ => 0
  merkle_bytes_lt := fun _ _ h => nomatch h
  digest_lt := fun _ => Nat.two_pow_pos 64

/-- A filesystem on which every directory exists with a UTF-8 path but the
merkle tree build always fails, and no files are found. -/
def fsFallback : FS where
  pathExists := fun _ => true
  pathUtf8 := fun _ => true
  merkleRoot := fun _ => none
  filesOf := fun _ => []
  fileDigest := fun _ => 0
  merkle_bytes_lt := fun _ _ h => nomatch h
  digest_lt := fun _ => Nat.two_pow_pos 64

/-! Claim theorems about the fingerprint engine. -/

/-- C1: for every directory list and every permutation of it,
`compute_cache` returns the same fingerprint: the multi-directory exact
path sorts the per-directory hashes before combining, and the sampling
path reduces per-file digests with an order-independent XOR fold. -/
theorem compute_cache_order_independent (fs : FS) (d1 d2 : List String)
    (hp : d1.Perm d2) : compute_cache fs d1 = compute_cache fs d2 := by
  cases d1 with
  | nil =>
    have h2 : d2 = [] := hp.symm.eq_nil
    subst h2; rfl
  | cons a as =>
    cases as with
    | nil =>
      have h2 : d2 = [a] := List.perm_singleton.mp hp.symm
      subst h2; rfl
    | cons b bs =>
      cases d2 with
      | nil => exact absurd hp.eq_nil (by simp)
      | cons c cs =>
        cases cs with
        | nil =>
          have h1 : a :: b :: bs = [c] := List.perm_singleton.mp hp
          simp at h1
        | cons e es =>
          have e1 : compute_cache fs (a :: b :: bs)
              = (if ((a :: b :: bs).map (count_files_in_dir fs)).sum ≤ MERKLE_TREE_THRESHOLD
                  then compute_cache_merkle_multi fs (a :: b :: bs)
                  else compute_cache_sampling fs (a :: b :: bs)) := rfl
          have e2 : compute_cache fs (c :: e :: es)
              = (if ((c :: e :: es).map (count_files_in_dir fs)).sum ≤ MERKLE_TREE_THRESHOLD
                  then compute_cache_merkle_multi fs (c :: e :: es)
                  else compute_cache_sampling fs (c :: e :: es)) := rfl
          rw [e1, e2]
          have hsum : ((a :: b :: bs).map (count_files_in_dir fs)).sum
              = ((c :: e :: es).map (count_files_in_dir fs)).sum :=
            (hp.map (count_files_in_dir fs)).sum_eq
          rw [hsum]
          by_cases hle : ((c :: e :: es).map (count_files_in_dir fs)).sum ≤ MERKLE_TREE_THRESHOLD
          · simp only [if_pos hle, compute_cache_merkle_multi_eq]
            rw [multiPure_perm fs hp]
          · simp only [if_neg hle, compute_cache_sampling_eq]
            rw [samplingPure_perm fs hp]

/-- Witness for C1 at a concrete permuted pair of directory lists. -/
theorem compute_cache_order_independent_witness :
    (["a", "b"] : List String).Perm ["b", "a"]
      ∧ compute_cache fsEmpty ["a", "b"] = compute_cache fsEmpty ["b", "a"] :=
  ⟨by decide, compute_cache_order_independent fsEmpty ["a", "b"] ["b", "a"] (by decide)⟩

/-- C4: the empty directory list yields the fixed all-zero sentinel
fingerprint, and so does a single-element list whose directory does not
exist. -/
theorem compute_cache_sentinel (fs : FS) (d : String) (h : fs.pathExists d = false) :
    compute_cache fs [] = .ok DEFAULT_HASH ∧ compute_cache fs [d] = .ok DEFAULT_HASH := by
  constructor
  · rfl
  · show compute_cache_merkle fs d = .ok DEFAULT_HASH
    unfold compute_cache_merkle
    rw [h]
    simp

/-- Witness for C4 on a filesystem where the directory is missing. -/
theorem compute_cache_sentinel_witness :
    fsEmpty.pathExists "x" = false
      ∧ (compute_cache fsEmpty [] = .ok DEFAULT_HASH
          ∧ compute_cache fsEmpty ["x"] = .ok DEFAULT_HASH) :=
  ⟨rfl, compute_cache_sentinel fsEmpty "x" rfl⟩

/-- C6: on every filesystem state and input list, `compute_cache` returns
`Ok` with a fingerprint string; its error variant is unreachable. -/
theorem compute_cache_never_fails (fs : FS) (dirs : List String) :
    ∃ s, compute_cache fs dirs = .ok s := by
  cases dirs with
  | nil => exact ⟨DEFAULT_HASH, rfl⟩
  | cons a as =>
    cases as with
    | nil => exact ⟨merklePure fs a, compute_cache_merkle_eq fs a⟩
    | cons b bs =>
      have e1 : compute_cache fs (a :: b :: bs)
          = (if ((a :: b :: bs).map (count_files_in_dir fs)).sum ≤ MERKLE_TREE_THRESHOLD
              then compute_cache_merkle_multi fs (a :: b :: bs)
              else compute_cache_sampling fs (a :: b :: bs)) := rfl
      rw [e1]
      by_cases hle : ((a :: b :: bs).map (count_files_in_dir fs)).sum ≤ MERKLE_TREE_THRESHOLD
      · rw [if_pos hle, compute_cache_merkle_multi_eq]
        exact ⟨_, rfl⟩
      · rw [if_neg hle, compute_cache_sampling_eq]
        exact ⟨_, rfl⟩

/-- The source's conditional truncation equals an unconditional take of 16
characters (taking more than the length is the identity). -/
theorem truncate_eq_take (h : String) :
    (if h.length > 16 then String.mk (h.data.take 16) else h) = String.mk (h.data.take 16) := by
  split
  · rfl
  · rename_i hle
    have hlen : h.data.length ≤ 16 := Nat.not_lt.mp hle
    rw [List.take_of_length_le hlen]

/-- The fingerprint combination exactly as the spec's words describe it:
per-directory exact hash with fallback, hex strings sorted
lexicographically, then 4 rounds indexed 0..3, each XOR-accumulating over
all hashes the 64-bit integer parsed from the hash's first 16 hex
characters plus the round index with wraparound, each round rendered as 16
lowercase hex characters and the 4 rounds concatenated. -/
def claimedMultiFingerprint (fs : FS) (dirs : List String) : String :=
  let hashes := sortBy strLeB (dirs.map (merklePure fs))
  String.join ((List.range 4).map (fun i =>
    toHex16 (hashes.foldl
      (fun acc h => acc ^^^ ((u64FromHexOr0 (String.mk (h.data.take 16)) + i) % 2 ^ 64)) 0)))

/-- C3: for two or more directories totalling at most 1000 regular files,
the fingerprint is exactly the 4-round XOR combination of the sorted
per-directory exact hashes described by the spec. -/
theorem compute_cache_multi_formula (fs : FS) (dirs : List String)
    (hlen : 2 ≤ dirs.length)
    (hcount : (dirs.map (count_files_in_dir fs)).sum ≤ 1000) :
    compute_cache fs dirs = .ok (claimedMultiFingerprint fs dirs) := by
  cases dirs with
  | nil => simp at hlen
  | cons a as =>
    cases as with
    | nil => simp at hlen
    | cons b bs =>
      have e1 : compute_cache fs (a :: b :: bs)
          = (if ((a :: b :: bs).map (count_files_in_dir fs)).sum ≤ MERKLE_TREE_THRESHOLD
              then compute_cache_merkle_multi fs (a :: b :: bs)
              else compute_cache_sampling fs (a :: b :: bs)) := rfl
      have hcount' : ((a :: b :: bs).map (count_files_in_dir fs)).sum ≤ MERKLE_TREE_THRESHOLD :=
        hcount
      rw [e1, if_pos hcount', compute_cache_merkle_multi_eq]
      unfold multiPure claimedMultiFingerprint combineRound
      simp only [truncate_eq_take]

/-- Witness for C3 at a concrete two-directory list. -/
theorem compute_cache_multi_formula_witness :
    (2 ≤ (["a", "b"] : List String).length
        ∧ ((["a", "b"] : List String).map (count_files_in_dir fsEmpty)).sum ≤ 1000)
      ∧ compute_cache fsEmpty ["a", "b"] = .ok (claimedMultiFingerprint fsEmpty ["a", "b"]) :=
  ⟨⟨by decide, by decide⟩, compute_cache_multi_formula fsEmpty ["a", "b"] (by decide) (by decide)⟩

/-- C5 counterexample: for a directory that does not exist, the
per-directory result is the 64-char sentinel, while the sampling hash over
that single directory is the one-char string "0" — the claim that
nonexistence falls back to the sampling hash is false on the code. -/
theorem merkle_missing_dir_not_sampling :
    compute_cache_merkle fsEmpty "d" = .ok DEFAULT_HASH
      ∧ compute_cache_sampling fsEmpty ["d"] = .ok "0"
      ∧ (Except.ok DEFAULT_HASH : Except IOErr String) ≠ .ok "0" :=
  ⟨rfl, rfl, by decide⟩

/-- C5 amended: when the exact tree-hash build fails over an existing
UTF-8 path, the per-directory result equals the sampling hash computed over
that single directory; when the directory does not exist, the result is the
sentinel fingerprint instead. -/
theorem merkle_fallback (fs : FS) (d : String) :
    (fs.pathExists d = true → fs.pathUtf8 d = true → fs.merkleRoot d = none →
        compute_cache_merkle fs d = compute_cache_sampling fs [d])
      ∧ (fs.pathExists d = false → compute_cache_merkle fs d = .ok DEFAULT_HASH) := by
  constructor
  · intro h1 h2 h3
    unfold compute_cache_merkle
    rw [h1, h2, h3]
    simp
  · intro h1
    unfold compute_cache_merkle
    rw [h1]
    simp

/-- Witness for C5's amended statement: a build failure falls back to the
sampling hash, and a missing directory yields the sentinel. -/
theorem merkle_fallback_witness :
    (fsFallback.pathExists "d" = true
        ∧ compute_cache_merkle fsFallback "d" = compute_cache_sampling fsFallback ["d"])
      ∧ (fsEmpty.pathExists "d" = false
          ∧ compute_cache_merkle fsEmpty "d" = .ok DEFAULT_HASH) :=
  ⟨⟨rfl, (merkle_fallback fsFallback "d").1 rfl rfl rfl⟩,
    ⟨rfl, (merkle_fallback fsEmpty "d").2 rfl⟩⟩

theorem hexDigitsAux_length_le (fuel : Nat) : ∀ n, (hexDigitsAux fuel n).length ≤ fuel := by
  induction fuel with
  | zero => intro n; simp [hexDigitsAux]
  | succ f ih =>
    intro n
    cases n with
    | zero => simp [hexDigitsAux]
    | succ m =>
      simp only [hexDigitsAux, List.length_append, List.length_cons, List.length_nil]
      have := ih ((m + 1) / 16)
      omega

/-- The unpadded hex rendering is between 1 and 16 characters long. -/
theorem formatHex_length (n : Nat) :
    1 ≤ (formatHex n).length ∧ (formatHex n).length ≤ 16 := by
  unfold formatHex
  split
  · exact ⟨by decide, by decide⟩
  · rename_i hn
    have hle : (hexDigitsAux 16 n).length ≤ 16 := hexDigitsAux_length_le 16 n
    have hmk : (String.mk (hexDigitsAux 16 n)).length = (hexDigitsAux 16 n).length := rfl
    have hpos : 1 ≤ (hexDigitsAux 16 n).length := by
      cases n with
      | zero => exact absurd rfl hn
      | succ m =>
        simp only [hexDigitsAux, List.length_append, List.length_cons, List.length_nil]
        omega
    rw [hmk]
    exact ⟨hpos, hle⟩

/-- C10: a sampling-path fingerprint is the unpadded lowercase-hex rendering
of the 64-bit XOR fold: between 1 and 16 characters, never the 64-character
width of the sentinel or exact-hash fingerprints, and "0" when the
directory set contributes no files. -/
theorem sampling_hash_short (fs : FS) (dirs : List String) (s : String)
    (h : compute_cache_sampling fs dirs = .ok s) :
    (1 ≤ s.length ∧ s.length ≤ 16) ∧ s.length ≠ 64
      ∧ ((dirs.map fs.filesOf).flatten = [] → s = "0") := by
  have hs : s = samplingPure fs dirs :=
    (Except.ok.inj ((compute_cache_sampling_eq fs dirs).symm.trans h)).symm
  subst hs
  have hfmt : samplingPure fs dirs
      = formatHex (((sortBy strLeB ((dirs.map fs.filesOf).flatten)).map
          fs.fileDigest).foldl (fun a b => a ^^^ b) 0) := rfl
  refine ⟨?_, ?_, ?_⟩
  · rw [hfmt]; exact formatHex_length _
  · rw [hfmt]
    have := (formatHex_length (((sortBy strLeB ((dirs.map fs.filesOf).flatten)).map
        fs.fileDigest).foldl (fun a b => a ^^^ b) 0)).2
    omega
  · intro hflat
    rw [hfmt, hflat]
    rfl

/-- Witness for C10 on a filesystem contributing no files. -/
theorem sampling_hash_short_witness :
    compute_cache_sampling fsEmpty ["a"] = .ok "0"
      ∧ ((1 ≤ ("0").length ∧ ("0").length ≤ 16) ∧ ("0").length ≠ 64
          ∧ (((["a"] : List String).map fsEmpty.filesOf).flatten = [] → ("0") = "0")) :=
  ⟨rfl, sampling_hash_short fsEmpty ["a"] "0" rfl⟩

/-! Claim theorems about the server. -/

/-- C2 counterexample: a pull with a valid slot id, an existing entry and a
missing `X-Volt-Hash` header is answered 200 with the archive, not 400 —
the handler never rejects a missing fingerprint header. -/
theorem pull_missing_hash_not_badRequest :
    pull { hashFile := some "h", zstFile := .found [7] }
        "00000000-0000-0000-0000-000000000000" none = .archive "zstd" [7]
      ∧ Resp.archive "zstd" [7] ≠ .status .badRequest := by
  constructor
  · decide
  · decide

/-- C2 amended: pull answers 304 when the stored fingerprint exists, the
header is present and the trimmed stored text equals it (for every archive
file state, i.e. without opening the archive); 200 with Content-Encoding
zstd and the archive bytes whenever no 304 applies (fingerprints differ,
header missing, or no stored fingerprint) and the archive exists; 404
whenever no 304 applies and the archive is absent — in particular when no
entry exists at all; and 400 for an invalid UUID with the same response
for every store state (no filesystem access).  A missing fingerprint
header is never rejected with 400: the 304 comparison is simply
skipped. -/
theorem pull_protocol (st : StoreState) (id : String) :
    (∀ c s, uuidParseOk id = true → st.hashFile = some s → c = strTrim s →
        pull st id (some c) = .status .notModified)
      ∧ (∀ c s b, uuidParseOk id = true → st.hashFile = some s → c ≠ strTrim s →
          st.zstFile = .found b → pull st id (some c) = .archive "zstd" b)
      ∧ (∀ b, uuidParseOk id = true → st.zstFile = .found b →
          pull st id none = .archive "zstd" b)
      ∧ (∀ b h, uuidParseOk id = true → st.hashFile = none → st.zstFile = .found b →
          pull st id h = .archive "zstd" b)
      ∧ (uuidParseOk id = true → st.zstFile = .notFound →
          pull st id none = .status .notFound)
      ∧ (∀ h, uuidParseOk id = true → st.hashFile = none → st.zstFile = .notFound →
          pull st id h = .status .notFound)
      ∧ (∀ c s, uuidParseOk id = true → st.hashFile = some s → c ≠ strTrim s →
          st.zstFile = .notFound → pull st id (some c) = .status .notFound)
      ∧ (uuidParseOk id = false → ∀ h, pull st id h = .status .badRequest) := by
  refine ⟨?_, ?_, ?_, ?_, ?_, ?_, ?_, ?_⟩
  · intro c s h1 h2 h3
    subst h3
    simp [pull, h1, h2]
  · intro c s b h1 h2 h3 h4
    simp [pull, pullServeArchive, h1, h2, h3, h4]
  · intro b h1 h2
    cases hsf : st.hashFile with
    | none => simp [pull, pullServeArchive, h1, h2, hsf]
    | some s => simp [pull, pullServeArchive, h1, h2, hsf]
  · intro b h h1 h2 h3
    cases h with
    | none => simp [pull, pullServeArchive, h1, h2, h3]
    | some c => simp [pull, pullServeArchive, h1, h2, h3]
  · intro h1 h2
    cases hsf : st.hashFile with
    | none => simp [pull, pullServeArchive, h1, h2, hsf]
    | some s => simp [pull, pullServeArchive, h1, h2, hsf]
  · intro h h1 h2 h3
    cases h with
    | none => simp [pull, pullServeArchive, h1, h2, h3]
    | some c => simp [pull, pullServeArchive, h1, h2, h3]
  · intro c s h1 h2 h3 h4
    simp [pull, pullServeArchive, h1, h2, h3, h4]
  · intro h1 h
    simp [pull, h1]

/-- Witness for C2's amended statement at concrete store states, one per
response case. -/
theorem pull_protocol_witness :
    pull { hashFile := some "h", zstFile := .found [7] }
        "00000000-0000-0000-0000-000000000000" (some "h") = .status .notModified
      ∧ pull { hashFile := some "h", zstFile := .found [7] }
          "00000000-0000-0000-0000-000000000000" (some "x") = .archive "zstd" [7]
      ∧ pull { hashFile := some "h", zstFile := .found [7] }
          "00000000-0000-0000-0000-000000000000" none = .archive "zstd" [7]
      ∧ pull { hashFile := none, zstFile := .found [7] }
          "00000000-0000-0000-0000-000000000000" (some "h") = .archive "zstd" [7]
      ∧ pull { hashFile := some "h", zstFile := .notFound }
          "00000000-0000-0000-0000-000000000000" none = .status .notFound
      ∧ pull { hashFile := none, zstFile := .notFound }
          "00000000-0000-0000-0000-000000000000" (some "h") = .status .notFound
      ∧ pull { hashFile := some "h", zstFile := .notFound }
          "00000000-0000-0000-0000-000000000000" (some "x") = .status .notFound
      ∧ pull { hashFile := some "h", zstFile := .found [7] }
          "not-a-uuid" (some "h") = .status .badRequest :=
  ⟨(pull_protocol _ _).1 "h" "h" (by decide) rfl (by decide),
    (pull_protocol _ _).2.1 "x" "h" [7] (by decide) rfl (by decide) rfl,
    (pull_protocol _ _).2.2.1 [7] (by decide) rfl,
    (pull_protocol _ _).2.2.2.1 [7] (some "h") (by decide) rfl rfl,
    (pull_protocol _ _).2.2.2.2.1 (by decide) rfl,
    (pull_protocol _ _).2.2.2.2.2.1 (some "h") (by decide) rfl rfl,
    (pull_protocol _ _).2.2.2.2.2.2.1 "x" "h" (by decide) rfl (by decide) rfl,
    (pull_protocol _ _).2.2.2.2.2.2.2 (by decide) (some "h")⟩

theorem stripBearer_append (t : String) : stripBearer ("Bearer " ++ t) = some t := by
  unfold stripBearer
  have hp : ("Bearer ".data).isPrefixOf (("Bearer " ++ t).data) = true := by
    rw [String.data_append]
    exact List.isPrefixOf_iff_prefix.mpr (List.prefix_append _ _)
  rw [hp]
  simp only [if_pos]
  rw [String.data_append]
  have h7 : ("Bearer ".data).length = 7 := rfl
  rw [← h7, List.drop_left]

/-- C7: on every route (any handler over any store state), a missing
Authorization header or one without the `Bearer ` prefix is answered 401
and a bearer token different from the configured secret is answered 403 —
in both cases by the middleware, for every handler and store state, the
handler never being applied — while the correct token lets the request
proceed to the handler. -/
theorem auth_gate (secret : String) (hdr : Option String)
    (handler : StoreState → Resp) (st : StoreState) :
    (hdr = none → handleRequest secret hdr handler st = .status .unauthorized)
      ∧ (∀ v, hdr = some v → ("Bearer ".data).isPrefixOf v.data = false →
          handleRequest secret hdr handler st = .status .unauthorized)
      ∧ (∀ tok, hdr.bind stripBearer = some tok → tok ≠ secret →
          handleRequest secret hdr handler st = .status .forbidden)
      ∧ (hdr = some ("Bearer " ++ secret) → handleRequest secret hdr handler st = handler st) := by
  refine ⟨?_, ?_, ?_, ?_⟩
  · intro h1
    subst h1
    rfl
  · intro v h1 h2
    subst h1
    have hs : stripBearer v = none := by
      unfold stripBearer
      rw [h2]
      simp
    simp [handleRequest, auth_middleware, hs]
  · intro tok h1 h2
    simp [handleRequest, auth_middleware, h1, h2]
  · intro h1
    subst h1
    simp [handleRequest, auth_middleware, stripBearer_append]

/-- Witness for C7 at a concrete secret, the four header shapes. -/
theorem auth_gate_witness :
    handleRequest "s" none (fun _ => .status .ok)
        { hashFile := none, zstFile := .notFound } = .status .unauthorized
      ∧ handleRequest "s" (some "Basic x") (fun _ => .status .ok)
          { hashFile := none, zstFile := .notFound } = .status .unauthorized
      ∧ handleRequest "s" (some "Bearer t") (fun _ => .status .ok)
          { hashFile := none, zstFile := .notFound } = .status .forbidden
      ∧ handleRequest "s" (some ("Bearer " ++ "s")) (fun _ => .status .ok)
          { hashFile := none, zstFile := .notFound } = .status .ok :=
  ⟨(auth_gate "s" none _ _).1 rfl,
    (auth_gate "s" (some "Basic x") _ _).2.1 "Basic x" rfl (by decide),
    (auth_gate "s" (some "Bearer t") _ _).2.2.1 "t" (by decide) (by decide),
    (auth_gate "s" (some ("Bearer " ++ "s")) _ _).2.2.2 rfl⟩

/-- C9: a push with a valid slot id and an absent (or unreadable)
`X-Volt-Hash` header still succeeds after streaming the body, writing the
empty string as the slot's fingerprint; a later pull carrying any
non-empty fingerprint for that slot can then never answer 304. -/
theorem push_missing_hash_header (st : StoreState) (id : String)
    (chunks : List (Except Unit (List Nat))) (body : List Nat)
    (hid : uuidParseOk id = true) (hbody : pushWrite [] chunks = .ok body) :
    push st id none chunks = (.ok, { zstFile := .found body, hashFile := some "" })
      ∧ ∀ c : String, c ≠ "" →
          pull { zstFile := .found body, hashFile := some "" } id (some c)
            ≠ .status .notModified := by
  constructor
  · simp [push, hid, hbody]
  · intro c hc
    have htrim : strTrim "" = "" := rfl
    simp [pull, pullServeArchive, hid, htrim, hc]

/-- Witness for C9 with a concrete body stream. -/
theorem push_missing_hash_header_witness :
    push { hashFile := none, zstFile := .notFound }
        "00000000-0000-0000-0000-000000000000" none [.ok [1, 2]]
        = (.ok, { zstFile := .found [1, 2], hashFile := some "" })
      ∧ pull { zstFile := .found [1, 2], hashFile := some "" }
          "00000000-0000-0000-0000-000000000000" (some "a") ≠ .status .notModified :=
  ⟨(push_missing_hash_header _ _ [.ok [1, 2]] [1, 2] (by decide) rfl).1,
    (push_missing_hash_header { hashFile := none, zstFile := .notFound } _ [.ok [1, 2]]
        [1, 2] (by decide) rfl).2 "a" (by decide)⟩

/-- C8: the server admits an interleaving of two pushes to one slot (each
push's archive write and hash write kept in program order, nothing
serializing them) whose final stored entry pairs the second push's archive
with the first push's fingerprint — a state neither push produced — and a
pull then observes 304 against that torn pairing.  The claim's required
critical section does not exist in the code. -/
theorem push_interleaving_torn :
    Interleaving (pushSteps [1] "h1") (pushSteps [2] "h2")
        [.wZst [1], .wZst [2], .wHash "h2", .wHash "h1"]
      ∧ runSteps { hashFile := none, zstFile := .notFound }
            [.wZst [1], .wZst [2], .wHash "h2", .wHash "h1"]
          = { hashFile := some "h1", zstFile := .found [2] }
      ∧ ({ hashFile := some "h1", zstFile := .found [2] } : StoreState)
          ≠ runSteps { hashFile := none, zstFile := .notFound } (pushSteps [1] "h1")
      ∧ ({ hashFile := some "h1", zstFile := .found [2] } : StoreState)
          ≠ runSteps { hashFile := none, zstFile := .notFound } (pushSteps [2] "h2")
      ∧ pull { hashFile := some "h1", zstFile := .found [2] }
          "00000000-0000-0000-0000-000000000000" (some "h1") = .status .notModified :=
  ⟨.left (.right (.right (.left .nil))), rfl, by decide, by decide, by decide⟩
